import Mathlib

/-
Verification of the task-manager state-synchronization core
(src/src/app/app.component.ts, class AppComponent).

The component is embedded as an explicit state machine:

* `AppState` mirrors the component's fields.
* Each event handler of the component is translated into a `Proc`, a small
  process language whose constructors correspond exactly to the RxJS
  combinators the source uses:
    - `act`   : a synchronous block of field assignments;
    - `call`  : `observable.subscribe(k)` / `concatMap` - issue one facade
                query, resume the continuation when its response arrives;
    - `fill`  : the `categories.forEach(cat => getUncompletedCountInCategory(cat)
                .subscribe(count => categoryMap.set(cat, count)))` loop of
                `fillCategories` - one independent subscription per category;
    - `zip4`  : `zip(o1, o2, o3, o4).subscribe(k)` - four queries issued
                back-to-back, joined by a completion barrier;
    - `par`   : two subscriptions started one after the other in the same
                synchronous block (independent in-flight observables).
* `sync` runs a `Proc`'s synchronous part, producing the new state and the
  set of in-flight subscriptions (`Thread`s).
* `deliver` lets the environment (the asynchronous data facade) complete one
  pending subscription with an arbitrary response - or an error - modelling
  the unconstrained completion order of the facade.  `run` folds a whole
  schedule of completions.  All temporal claims are proved over every
  schedule.

The model classes Task/Category/Priority are not under src/ (only
app.component.ts is); they are modelled from the spec, section 3.
-/

namespace Todo

/-- Modelled from the spec, section 3 (model/Priority is not under src/):
identity, label, ordering weight. -/
structure Priority where
  id : Nat
  title : String
  weight : Nat
deriving DecidableEq

/-- Modelled from the spec, section 3 (model/Category is not under src/):
identity and title. -/
structure Category where
  id : Nat
  title : String
deriving DecidableEq

/-- Modelled from the spec, section 3 (model/Task is not under src/):
identity, title, completion flag, creation timestamp, optional priority
reference, optional category reference. -/
structure Task where
  id : Nat
  title : String
  completed : Bool
  date : Nat
  priority : Option Priority
  category : Option Category
deriving DecidableEq

/-- `Map<Category, number>.set` (app.component.ts:190,250 via categoryMap.set):
replace the value of an existing key in place, otherwise append the new entry
(JS Map preserves insertion order). -/
def mapSet : List (Category × Nat) → Category → Nat → List (Category × Nat)
  | [], c, n => [(c, n)]
  | (c', n') :: rest, c, n =>
    if c' = c then (c, n) :: rest else (c', n') :: mapSet rest c n

/-- `Map<Category, number>.delete` (app.component.ts:148): remove the single
entry with the given key, no-op if absent. -/
def mapDelete : List (Category × Nat) → Category → List (Category × Nat)
  | [], _ => []
  | (c', n') :: rest, c =>
    if c' = c then rest else (c', n') :: mapDelete rest c

/-- The mutable fields of AppComponent (app.component.ts:20-55).
`categoryMap` is the Category Index; the four count fields are the
statistics tuple; `selectedCategory`, the two search texts, `statusFilter`
and `priorityFilter` are the Filter State. -/
structure AppState where
  categoryMap : List (Category × Nat)
  tasks : List Task
  categories : List Category
  priorities : List Priority
  totalTasksCountInCategory : Nat
  completedCountInCategory : Nat
  uncompletedCountInCategory : Nat
  uncompletedTotalTasksCount : Nat
  showStat : Bool
  selectedCategory : Option Category
  searchTaskText : String
  searchCategoryText : String
  priorityFilter : Option Priority
  statusFilter : Option Bool
  menuOpened : Bool
  menuMode : String
  menuPosition : String
  showBackdrop : Bool
  isMobile : Bool
  isTablet : Bool
deriving DecidableEq

/-- The facade operations of DataHandlerService that app.component.ts issues
(spec section 6 lists the same signatures). -/
inductive Query where
  | searchTasks (cat : Option Category) (text : String)
      (status : Option Bool) (prio : Option Priority)
  | addTask (t : Task)
  | deleteTask (id : Nat)
  | searchCategories (text : String)
  | addCategory (title : String)
  | updateCategory (c : Category)
  | updateTask (t : Task)
  | deleteCategory (id : Nat)
  | getUncompletedCountInCategory (cat : Option Category)
  | getTotalCountInCategory (cat : Option Category)
  | getCompletedCountInCategory (cat : Option Category)
  | getUncompletedTotalCount
deriving DecidableEq

/-- Successful response payloads of the facade. -/
inductive RespData where
  | tasks (l : List Task)
  | task (t : Task)
  | category (c : Category)
  | categories (l : List Category)
  | count (n : Nat)
  | unit
deriving DecidableEq

/-- A completion of one in-flight facade operation: a value, or a
network/storage failure (spec section 7a). -/
inductive Delivery where
  | ok (d : RespData)
  | err
deriving DecidableEq

/-- `this.categories.sort((a, b) => a.title.localeCompare(b.title))`
(app.component.ts:107).  `Array.prototype.sort` is required by ECMA-262 to be
a stable sort consistent with the comparator; it is modelled by the stable
`List.mergeSort`.  `lc` abstracts `String.prototype.localeCompare` (a
locale-dependent three-way comparison returning a negative, zero or positive
integer). -/
def sortCategories (lc : String → String → Int) (l : List Category) : List Category :=
  l.mergeSort (fun a b => decide (lc a.title b.title ≤ 0))

mutual

/-- The reactive programs of the component: each handler body is one `Proc`.
Queries are functions of the state because the source reads the component
fields (`this.selectedCategory` etc.) at the moment the query is issued. -/
inductive Proc where
  | nil : Proc
  | act (f : AppState → AppState) (k : Proc) : Proc
  | call (q : AppState → Query) (k : RespData → Proc) : Proc
  | fill : Proc
  | zip4 (q1 q2 q3 q4 : AppState → Query) (k : Nat → Nat → Nat → Nat → Proc) : Proc
  | par (p1 p2 : Proc) : Proc

end

/-- One in-flight subscription. `waiting` is a plain `subscribe`, `counting`
is one per-category count subscription spawned by `fillCategories`, and
`barrier` is a `zip` of four count queries with its partially filled slots. -/
inductive Thread where
  | waiting (q : Query) (k : RespData → Proc) : Thread
  | counting (c : Category) : Thread
  | barrier (q1 q2 q3 q4 : Query) (r1 r2 r3 r4 : Option Nat)
      (k : Nat → Nat → Nat → Nat → Proc) : Thread

/-- A machine configuration: the component state plus all in-flight
subscriptions. -/
structure Config where
  s : AppState
  ths : List Thread

/-- Run the synchronous part of a program: apply field assignments and issue
queries, collecting the subscriptions left in flight.  Single-threaded, as in
the browser event loop: nothing interleaves with a synchronous block. -/
def sync : Proc → AppState → AppState × List Thread
  | .nil, s => (s, [])
  | .act f k, s => sync k (f s)
  | .call q k, s => (s, [.waiting (q s) k])
  | .fill, s => (s, s.categories.map Thread.counting)
  | .zip4 q1 q2 q3 q4 k, s =>
    (s, [.barrier (q1 s) (q2 s) (q3 s) (q4 s) none none none none k])
  | .par p1 p2, s =>
    let r1 := sync p1 s
    let r2 := sync p2 r1.1
    (r2.1, r1.2 ++ r2.2)

/-- The facade operations a thread is still waiting on (for a barrier, the
slots not yet filled). -/
def Thread.pendingQueries : Thread → List Query
  | .waiting q _ => [q]
  | .counting c => [.getUncompletedCountInCategory (some c)]
  | .barrier q1 q2 q3 q4 r1 r2 r3 r4 _ =>
    (if r1.isNone then [q1] else []) ++ (if r2.isNone then [q2] else []) ++
    (if r3.isNone then [q3] else []) ++ (if r4.isNone then [q4] else [])

/-- All facade operations currently in flight. -/
def Config.pendingQueries (c : Config) : List Query :=
  (c.ths.map Thread.pendingQueries).flatten

/-- Fill barrier slot `j` with count `n` if that slot is still empty. -/
def fillSlot (rs : Option Nat × Option Nat × Option Nat × Option Nat)
    (j : Nat) (n : Nat) : Option Nat × Option Nat × Option Nat × Option Nat :=
  match j with
  | 0 => (rs.1.getD n |> some, rs.2.1, rs.2.2.1, rs.2.2.2)
  | 1 => (rs.1, rs.2.1.getD n |> some, rs.2.2.1, rs.2.2.2)
  | 2 => (rs.1, rs.2.1, rs.2.2.1.getD n |> some, rs.2.2.2)
  | 3 => (rs.1, rs.2.1, rs.2.2.1, rs.2.2.2.getD n |> some)
  | _ + 4 => rs

/-- Complete one subscription with a delivery.  Returns the new state, the
replacement thread (`none` when the subscription is consumed) and the
subscriptions newly issued by the callback.
* a `subscribe` callback runs on a value and is torn down on error (the
  source installs no error handler, so `next` is simply never called);
* a `fillCategories` count subscription executes `categoryMap.set`;
* a `zip` barrier stores a value, fires its callback once all four slots are
  filled, and is torn down as a whole if any member errors - it never fires
  on a partial tuple. -/
def applyDelivery (s : AppState) (th : Thread) (j : Nat) (d : Delivery) :
    AppState × Option Thread × List Thread :=
  match th, d with
  | .waiting _ k, .ok r =>
    let r' := sync (k r) s
    (r'.1, none, r'.2)
  | .waiting _ _, .err => (s, none, [])
  | .counting c, .ok (.count n) =>
    ({ s with categoryMap := mapSet s.categoryMap c n }, none, [])
  | .counting _, .ok _ => (s, none, [])
  | .counting _, .err => (s, none, [])
  | .barrier _ _ _ _ _ _ _ _ _, .err => (s, none, [])
  | .barrier q1 q2 q3 q4 r1 r2 r3 r4 k, .ok (.count n) =>
    match fillSlot (r1, r2, r3, r4) j n with
    | (some a, some b, some c, some d') =>
      let r' := sync (k a b c d') s
      (r'.1, none, r'.2)
    | rs => (s, some (.barrier q1 q2 q3 q4 rs.1 rs.2.1 rs.2.2.1 rs.2.2.2 k), [])
  | .barrier q1 q2 q3 q4 r1 r2 r3 r4 k, .ok _ =>
    (s, some (.barrier q1 q2 q3 q4 r1 r2 r3 r4 k), [])

/-- The environment completes the `i`-th in-flight subscription (slot `j` of
it, when it is a barrier) with delivery `d`.  An index that names no
subscription changes nothing. -/
def deliver (c : Config) (i j : Nat) (d : Delivery) : Config :=
  match c.ths[i]? with
  | none => c
  | some th =>
    let r := applyDelivery c.s th j d
    match r.2.1 with
    | none => ⟨r.1, c.ths.eraseIdx i ++ r.2.2⟩
    | some th' => ⟨r.1, c.ths.set i th' ++ r.2.2⟩

/-- One asynchronous completion chosen by the environment: subscription
index, barrier slot, and the delivered outcome. -/
abbrev Sched := List (Nat × Nat × Delivery)

/-- Fold a whole schedule of asynchronous completions. -/
def run : Config → Sched → Config
  | c, [] => c
  | c, e :: es => run (deliver c e.1 e.2.1 e.2.2) es

/-- A user action: the handler's synchronous part runs to completion on the
current state (single-threaded event loop); its subscriptions join the
in-flight pool. -/
def invoke (c : Config) (p : Proc) : Config :=
  let r := sync p c.s
  ⟨r.1, c.ths ++ r.2⟩

/-- Invoke a handler on a quiescent component. -/
def start (p : Proc) (s : AppState) : Config := invoke ⟨s, []⟩ p

/-! ## The component's handlers (app.component.ts), one `Proc` each -/

/-- The callback of `updateTasks` (app.component.ts:226-228):
`subscribe(tasks => this.tasks = tasks)`. -/
def tasksK : RespData → Proc := fun d =>
  match d with
  | .tasks l => .act (fun s => { s with tasks := l }) .nil
  | _ => .nil

/-- `updateTasks` (app.component.ts:220-229): issue
`searchTasks(selectedCategory, searchTaskText, statusFilter, priorityFilter)`
and store the result in `tasks`. -/
def updateTasks : Proc :=
  .call (fun s => .searchTasks s.selectedCategory s.searchTaskText
    s.statusFilter s.priorityFilter) tasksK

/-- The four statistics assignments of the `zip` callback
(app.component.ts:279-282), executed in one synchronous block. -/
def setStats (s : AppState) (a b c d : Nat) : AppState :=
  { s with
    totalTasksCountInCategory := a
    completedCountInCategory := b
    uncompletedCountInCategory := c
    uncompletedTotalTasksCount := d }

/-- The callback of `updateStat` (app.component.ts:278-283). -/
def statK : Nat → Nat → Nat → Nat → Proc := fun a b c d =>
  .act (fun s => setStats s a b c d) .nil

/-- `updateStat` (app.component.ts:271-284): `zip` of the four count queries
for the currently selected category, one subscription per call. -/
def updateStat : Proc :=
  .zip4 (fun s => .getTotalCountInCategory s.selectedCategory)
    (fun s => .getCompletedCountInCategory s.selectedCategory)
    (fun s => .getUncompletedCountInCategory s.selectedCategory)
    (fun _ => .getUncompletedTotalCount)
    statK

/-- `updateTasksAndStat` (app.component.ts:261-268): `updateTasks()` then
`updateStat()`, two independent subscriptions issued back-to-back. -/
def updateTasksAndStat : Proc := .par updateTasks updateStat

/-- `onSelectCategory` (app.component.ts:130-140): record the selection,
refresh tasks and statistics, and on mobile close the side menu (the
conditional assignment `if (isMobile) menuOpened = false` is written as one
conditional field update). -/
def onSelectCategory (category : Option Category) : Proc :=
  .act (fun s => { s with selectedCategory := category })
    (.par updateTasksAndStat
      (.act (fun s =>
          { s with menuOpened := if s.isMobile then false else s.menuOpened })
        .nil))

/-- `onSearchTasks` (app.component.ts:202-205): record the search text and
refresh the task list. -/
def onSearchTasks (searchString : String) : Proc :=
  .act (fun s => { s with searchTaskText := searchString }) updateTasks

/-- `onFilterTasksByStatus` (app.component.ts:208-211): record the status
filter and refresh the task list. -/
def onFilterTasksByStatus (status : Option Bool) : Proc :=
  .act (fun s => { s with statusFilter := status }) updateTasks

/-- `onFilterTasksByPriority` (app.component.ts:214-217): record the priority
filter and refresh the task list. -/
def onFilterTasksByPriority (priority : Option Priority) : Proc :=
  .act (fun s => { s with priorityFilter := priority }) updateTasks

/-- The `if (t.category) categoryMap.set(t.category, count)` point update of
the add/delete-task subscriber (app.component.ts:189-191 and 248-251). -/
def applyRecount (t : Task) (n : Nat) (s : AppState) : AppState :=
  match t.category with
  | some c => { s with categoryMap := mapSet s.categoryMap c n }
  | none => s

/-- The inner continuation of the add/delete-task pipeline: once the count
for the mutated task's category arrives, point-update the Category Index
(only when the task has a category) and then run `updateTasksAndStat()`
(app.component.ts:183-195 and 243-255). -/
def recountK (t : Task) : RespData → Proc := fun d =>
  match d with
  | .count n => .act (applyRecount t n) updateTasksAndStat
  | _ => .nil

/-- The `concatMap` step shared verbatim by `onAddTask` and `onDeleteTask`
(app.component.ts:178-182 and 237-242): when the mutation's task is returned,
issue `getUncompletedCountInCategory(task.category)` - unconditionally, also
when `task.category` is null. -/
def recountChainK : RespData → Proc := fun d =>
  match d with
  | .task t => .call (fun _ => .getUncompletedCountInCategory t.category) (recountK t)
  | _ => .nil

/-- `onAddTask` (app.component.ts:233-257): `addTask(task)` piped through
`concatMap` into the category recount, then the point update and the
task/statistics refresh. -/
def onAddTask (task : Task) : Proc :=
  .call (fun _ => .addTask task) recountChainK

/-- `onDeleteTask` (app.component.ts:175-198): `deleteTask(task.id)` piped
through `concatMap` into the category recount, then the point update and the
task/statistics refresh - the same pipeline as `onAddTask`. -/
def onDeleteTask (task : Task) : Proc :=
  .call (fun _ => .deleteTask task.id) recountChainK

/-- `fillCategories` (app.component.ts:101-115): clear the Category Index,
sort the categories by title with `localeCompare`, and issue one independent
uncompleted-count subscription per category (`fill`), each of which runs
`categoryMap.set(cat, count)` when its count arrives. -/
def fillCategories (lc : String → String → Int) : Proc :=
  .act (fun s => { s with categoryMap := [],
                          categories := sortCategories lc s.categories })
    .fill

/-- The callback of `onSearchCategory` (app.component.ts:122-125): store the
found categories and rebuild the Category Index. -/
def searchCategoriesK (lc : String → String → Int) : RespData → Proc := fun d =>
  match d with
  | .categories l => .act (fun s => { s with categories := l }) (fillCategories lc)
  | _ => .nil

/-- `onSearchCategory` (app.component.ts:118-126): record the category search
text and issue `searchCategories(title)`. -/
def onSearchCategory (lc : String → String → Int) (title : String) : Proc :=
  .act (fun s => { s with searchCategoryText := title })
    (.call (fun _ => .searchCategories title) (searchCategoriesK lc))

/-- `onDeleteCategory` (app.component.ts:145-152): issue
`deleteCategory(category.id)`; the confirmation callback resets the selection
to "All" (null), point-deletes the returned category from the Category Index,
re-runs `onSearchCategory(this.searchCategoryText)` (the text re-assignment
there is the identity) and refreshes the task list.  The search-categories
query reads `searchCategoryText` at issue time, exactly as the source passes
`this.searchCategoryText`. -/
def onDeleteCategory (lc : String → String → Int) (category : Category) : Proc :=
  .call (fun _ => .deleteCategory category.id) (fun d =>
    match d with
    | .category cat =>
      .act (fun s => { s with selectedCategory := none,
                              categoryMap := mapDelete s.categoryMap cat })
        (.par
          (.call (fun s => .searchCategories s.searchCategoryText)
            (searchCategoriesK lc))
          updateTasks)
    | _ => .nil)

/-! ## Basic scheduler lemmas -/

theorem run_append (c : Config) (ds1 ds2 : Sched) :
    run c (ds1 ++ ds2) = run (run c ds1) ds2 := by
  induction ds1 generalizing c with
  | nil => rfl
  | cons e es ih => simp [run, ih]

theorem run_empty_ths (s : AppState) (ds : Sched) :
    run ⟨s, []⟩ ds = ⟨s, []⟩ := by
  induction ds with
  | nil => rfl
  | cons e es ih => simpa [run, deliver] using ih

/-! ## Frame machinery: a program that never writes a given projection -/

/-- `FramesOn π p` states that neither the synchronous part of `p` nor any
callback it ever registers (transitively) changes the projection `π` of the
state. -/
def FramesOn {α : Type} (π : AppState → α) : Proc → Prop
  | .nil => True
  | .act f k => (∀ s, π (f s) = π s) ∧ FramesOn π k
  | .call _ k => ∀ d, FramesOn π (k d)
  | .fill => ∀ s c n, π { s with categoryMap := mapSet s.categoryMap c n } = π s
  | .zip4 _ _ _ _ k => ∀ a b c d, FramesOn π (k a b c d)
  | .par p1 p2 => FramesOn π p1 ∧ FramesOn π p2

/-- Lift of `FramesOn` to an in-flight subscription. -/
def ThreadFrames {α : Type} (π : AppState → α) : Thread → Prop
  | .waiting _ k => ∀ d, FramesOn π (k d)
  | .counting _ => ∀ s c n, π { s with categoryMap := mapSet s.categoryMap c n } = π s
  | .barrier _ _ _ _ _ _ _ _ k => ∀ a b c d, FramesOn π (k a b c d)

theorem sync_frames {α : Type} {π : AppState → α} {p : Proc}
    (h : FramesOn π p) (s : AppState) :
    π (sync p s).1 = π s ∧ ∀ t ∈ (sync p s).2, ThreadFrames π t := by
  induction p generalizing s with
  | nil => exact ⟨rfl, by simp [sync]⟩
  | act f k ih =>
    obtain ⟨hf, hk⟩ := h
    obtain ⟨h1, h2⟩ := ih hk (f s)
    exact ⟨by simp [sync, h1, hf], by simpa [sync] using h2⟩
  | call q k ih =>
    refine ⟨rfl, ?_⟩
    intro t ht
    simp [sync] at ht
    subst ht
    exact h
  | fill =>
    refine ⟨rfl, ?_⟩
    intro t ht
    simp [sync, List.mem_map] at ht
    obtain ⟨c, _, rfl⟩ := ht
    exact h
  | zip4 q1 q2 q3 q4 k ih =>
    refine ⟨rfl, ?_⟩
    intro t ht
    simp [sync] at ht
    subst ht
    exact h
  | par p1 p2 ih1 ih2 =>
    obtain ⟨hp1, hp2⟩ := h
    obtain ⟨h11, h12⟩ := ih1 hp1 s
    obtain ⟨h21, h22⟩ := ih2 hp2 (sync p1 s).1
    refine ⟨by simp [sync, h21, h11], ?_⟩
    intro t ht
    simp [sync, List.mem_append] at ht
    rcases ht with ht | ht
    · exact h12 t ht
    · exact h22 t ht

theorem applyDelivery_frames {α : Type} {π : AppState → α} {th : Thread}
    (h : ThreadFrames π th) (s : AppState) (j : Nat) (d : Delivery) :
    π (applyDelivery s th j d).1 = π s ∧
    (∀ th', (applyDelivery s th j d).2.1 = some th' → ThreadFrames π th') ∧
    ∀ t ∈ (applyDelivery s th j d).2.2, ThreadFrames π t := by
  cases th with
  | waiting q k =>
    cases d with
    | ok r =>
      obtain ⟨h1, h2⟩ := sync_frames (h r) s
      exact ⟨h1, by simp [applyDelivery], by simpa [applyDelivery] using h2⟩
    | err => exact ⟨rfl, by simp [applyDelivery], by simp [applyDelivery]⟩
  | counting c =>
    cases d with
    | ok r =>
      cases r with
      | count n =>
        exact ⟨h s c n, by simp [applyDelivery], by simp [applyDelivery]⟩
      | tasks l => exact ⟨rfl, by simp [applyDelivery], by simp [applyDelivery]⟩
      | task t => exact ⟨rfl, by simp [applyDelivery], by simp [applyDelivery]⟩
      | category c => exact ⟨rfl, by simp [applyDelivery], by simp [applyDelivery]⟩
      | categories l => exact ⟨rfl, by simp [applyDelivery], by simp [applyDelivery]⟩
      | unit => exact ⟨rfl, by simp [applyDelivery], by simp [applyDelivery]⟩
    | err => exact ⟨rfl, by simp [applyDelivery], by simp [applyDelivery]⟩
  | barrier q1 q2 q3 q4 r1 r2 r3 r4 k =>
    cases d with
    | ok r =>
      cases r with
      | count n =>
        simp only [applyDelivery]
        split
        · rename_i a b c d' heq
          obtain ⟨h1, h2⟩ := sync_frames (h a b c d') s
          exact ⟨h1, by simp, h2⟩
        · rename_i heq
          refine ⟨rfl, ?_, by simp⟩
          intro th' hth'
          simp at hth'
          subst hth'
          exact h
      | tasks l =>
        refine ⟨rfl, ?_, by simp [applyDelivery]⟩
        intro th' hth'
        simp [applyDelivery] at hth'
        subst hth'
        exact h
      | task t =>
        refine ⟨rfl, ?_, by simp [applyDelivery]⟩
        intro th' hth'
        simp [applyDelivery] at hth'
        subst hth'
        exact h
      | category c =>
        refine ⟨rfl, ?_, by simp [applyDelivery]⟩
        intro th' hth'
        simp [applyDelivery] at hth'
        subst hth'
        exact h
      | categories l =>
        refine ⟨rfl, ?_, by simp [applyDelivery]⟩
        intro th' hth'
        simp [applyDelivery] at hth'
        subst hth'
        exact h
      | unit =>
        refine ⟨rfl, ?_, by simp [applyDelivery]⟩
        intro th' hth'
        simp [applyDelivery] at hth'
        subst hth'
        exact h
    | err => exact ⟨rfl, by simp [applyDelivery], by simp [applyDelivery]⟩

theorem deliver_frames {α : Type} {π : AppState → α} {c : Config}
    (h : ∀ t ∈ c.ths, ThreadFrames π t) (i j : Nat) (d : Delivery) :
    π (deliver c i j d).s = π c.s ∧
    ∀ t ∈ (deliver c i j d).ths, ThreadFrames π t := by
  cases hi : c.ths[i]? with
  | none =>
    have hd : deliver c i j d = c := by simp only [deliver, hi]
    rw [hd]
    exact ⟨rfl, h⟩
  | some th =>
    have hth : ThreadFrames π th := h th (List.getElem?_mem hi)
    obtain ⟨h1, h2, h3⟩ := applyDelivery_frames hth c.s j d
    cases hrep : (applyDelivery c.s th j d).2.1 with
    | none =>
      simp only [deliver, hi, hrep]
      refine ⟨h1, ?_⟩
      intro t ht
      simp only [List.mem_append] at ht
      rcases ht with ht | ht
      · exact h t (List.mem_of_mem_eraseIdx ht)
      · exact h3 t ht
    | some th' =>
      simp only [deliver, hi, hrep]
      refine ⟨h1, ?_⟩
      intro t ht
      simp only [List.mem_append] at ht
      rcases ht with ht | ht
      · rcases List.mem_or_eq_of_mem_set ht with ht' | rfl
        · exact h t ht'
        · exact h2 t hrep
      · exact h3 t ht

theorem run_frames {α : Type} {π : AppState → α} {c : Config} (ds : Sched)
    (h : ∀ t ∈ c.ths, ThreadFrames π t) :
    π (run c ds).s = π c.s ∧ ∀ t ∈ (run c ds).ths, ThreadFrames π t := by
  induction ds generalizing c with
  | nil => exact ⟨rfl, h⟩
  | cons e es ih =>
    obtain ⟨h1, h2⟩ := deliver_frames h e.1 e.2.1 e.2.2
    obtain ⟨h3, h4⟩ := ih h2
    exact ⟨by simp [run, h3, h1], by simpa [run] using h4⟩

/-! ## Query-budget machinery: the operations a program can ever issue -/

/-- `IssuesOnly P p` states that every facade operation `p` can ever issue -
synchronously or from any callback it registers, over any schedule -
satisfies `P`. -/
def IssuesOnly (P : Query → Prop) : Proc → Prop
  | .nil => True
  | .act _ k => IssuesOnly P k
  | .call q k => (∀ s, P (q s)) ∧ ∀ d, IssuesOnly P (k d)
  | .fill => ∀ c : Category, P (.getUncompletedCountInCategory (some c))
  | .zip4 q1 q2 q3 q4 k =>
    (∀ s, P (q1 s) ∧ P (q2 s) ∧ P (q3 s) ∧ P (q4 s)) ∧
    ∀ a b c d, IssuesOnly P (k a b c d)
  | .par p1 p2 => IssuesOnly P p1 ∧ IssuesOnly P p2

/-- Lift of `IssuesOnly` to an in-flight subscription. -/
def ThreadIssues (P : Query → Prop) : Thread → Prop
  | .waiting q k => P q ∧ ∀ d, IssuesOnly P (k d)
  | .counting c => P (.getUncompletedCountInCategory (some c))
  | .barrier q1 q2 q3 q4 _ _ _ _ k =>
    (P q1 ∧ P q2 ∧ P q3 ∧ P q4) ∧ ∀ a b c d, IssuesOnly P (k a b c d)

theorem thread_pending_issues {P : Query → Prop} {th : Thread}
    (h : ThreadIssues P th) : ∀ q ∈ th.pendingQueries, P q := by
  cases th with
  | waiting q k =>
    intro q' hq'
    simp [Thread.pendingQueries] at hq'
    subst hq'
    exact h.1
  | counting c =>
    intro q' hq'
    simp [Thread.pendingQueries] at hq'
    subst hq'
    exact h
  | barrier q1 q2 q3 q4 r1 r2 r3 r4 k =>
    intro q' hq'
    simp only [Thread.pendingQueries, List.mem_append] at hq'
    obtain ⟨⟨h1, h2, h3, h4⟩, _⟩ := h
    rcases hq' with ((hq' | hq') | hq') | hq' <;>
      · split at hq' <;> simp_all

theorem sync_issues {P : Query → Prop} {p : Proc}
    (h : IssuesOnly P p) (s : AppState) :
    ∀ t ∈ (sync p s).2, ThreadIssues P t := by
  induction p generalizing s with
  | nil => simp [sync]
  | act f k ih => simpa [sync] using ih h (f s)
  | call q k ih =>
    intro t ht
    simp [sync] at ht
    subst ht
    exact ⟨h.1 s, h.2⟩
  | fill =>
    intro t ht
    simp [sync, List.mem_map] at ht
    obtain ⟨c, _, rfl⟩ := ht
    exact h c
  | zip4 q1 q2 q3 q4 k ih =>
    intro t ht
    simp [sync] at ht
    subst ht
    exact ⟨h.1 s, h.2⟩
  | par p1 p2 ih1 ih2 =>
    intro t ht
    simp [sync, List.mem_append] at ht
    rcases ht with ht | ht
    · exact ih1 h.1 s t ht
    · exact ih2 h.2 (sync p1 s).1 t ht

theorem applyDelivery_issues {P : Query → Prop} {th : Thread}
    (h : ThreadIssues P th) (s : AppState) (j : Nat) (d : Delivery) :
    (∀ th', (applyDelivery s th j d).2.1 = some th' → ThreadIssues P th') ∧
    ∀ t ∈ (applyDelivery s th j d).2.2, ThreadIssues P t := by
  cases th with
  | waiting q k =>
    cases d with
    | ok r =>
      exact ⟨by simp [applyDelivery], by simpa [applyDelivery] using sync_issues (h.2 r) s⟩
    | err => exact ⟨by simp [applyDelivery], by simp [applyDelivery]⟩
  | counting c =>
    cases d with
    | ok r => cases r <;> exact ⟨by simp [applyDelivery], by simp [applyDelivery]⟩
    | err => exact ⟨by simp [applyDelivery], by simp [applyDelivery]⟩
  | barrier q1 q2 q3 q4 r1 r2 r3 r4 k =>
    cases d with
    | ok r =>
      cases r with
      | count n =>
        simp only [applyDelivery]
        split
        · rename_i a b c d' heq
          exact ⟨by simp, sync_issues (h.2 a b c d') s⟩
        · rename_i heq
          refine ⟨?_, by simp⟩
          intro th' hth'
          simp at hth'
          subst hth'
          exact ⟨h.1, h.2⟩
      | tasks l =>
        refine ⟨?_, by simp [applyDelivery]⟩
        intro th' hth'
        simp [applyDelivery] at hth'
        subst hth'
        exact h
      | task t =>
        refine ⟨?_, by simp [applyDelivery]⟩
        intro th' hth'
        simp [applyDelivery] at hth'
        subst hth'
        exact h
      | category c =>
        refine ⟨?_, by simp [applyDelivery]⟩
        intro th' hth'
        simp [applyDelivery] at hth'
        subst hth'
        exact h
      | categories l =>
        refine ⟨?_, by simp [applyDelivery]⟩
        intro th' hth'
        simp [applyDelivery] at hth'
        subst hth'
        exact h
      | unit =>
        refine ⟨?_, by simp [applyDelivery]⟩
        intro th' hth'
        simp [applyDelivery] at hth'
        subst hth'
        exact h
    | err => exact ⟨by simp [applyDelivery], by simp [applyDelivery]⟩

theorem deliver_issues {P : Query → Prop} {c : Config}
    (h : ∀ t ∈ c.ths, ThreadIssues P t) (i j : Nat) (d : Delivery) :
    ∀ t ∈ (deliver c i j d).ths, ThreadIssues P t := by
  cases hi : c.ths[i]? with
  | none =>
    have hd : deliver c i j d = c := by simp only [deliver, hi]
    rw [hd]
    exact h
  | some th =>
    have hth : ThreadIssues P th := h th (List.getElem?_mem hi)
    obtain ⟨h2, h3⟩ := applyDelivery_issues hth c.s j d
    cases hrep : (applyDelivery c.s th j d).2.1 with
    | none =>
      simp only [deliver, hi, hrep]
      intro t ht
      simp only [List.mem_append] at ht
      rcases ht with ht | ht
      · exact h t (List.mem_of_mem_eraseIdx ht)
      · exact h3 t ht
    | some th' =>
      simp only [deliver, hi, hrep]
      intro t ht
      simp only [List.mem_append] at ht
      rcases ht with ht | ht
      · rcases List.mem_or_eq_of_mem_set ht with ht' | rfl
        · exact h t ht'
        · exact h2 t hrep
      · exact h3 t ht

theorem run_issues {P : Query → Prop} {c : Config} (ds : Sched)
    (h : ∀ t ∈ c.ths, ThreadIssues P t) :
    ∀ q ∈ (run c ds).pendingQueries, P q := by
  have hth : ∀ t ∈ (run c ds).ths, ThreadIssues P t := by
    induction ds generalizing c with
    | nil => exact h
    | cons e es ih => simpa [run] using ih (deliver_issues h e.1 e.2.1 e.2.2)
  intro q hq
  simp only [Config.pendingQueries, List.mem_flatten, List.mem_map] at hq
  obtain ⟨l, ⟨t, ht, rfl⟩, hql⟩ := hq
  exact thread_pending_issues (hth t ht) q hql

/-- Generic pool closure: if every in-flight subscription satisfies `TP` and
completing a `TP` subscription only ever leaves or spawns `TP`
subscriptions, then `TP` holds of the whole pool after any delivery. -/
theorem deliver_pool {TP : Thread → Prop} {c : Config}
    (h : ∀ t ∈ c.ths, TP t)
    (hstep : ∀ s th j d, TP th →
      (∀ th', (applyDelivery s th j d).2.1 = some th' → TP th') ∧
      ∀ t ∈ (applyDelivery s th j d).2.2, TP t)
    (i j : Nat) (d : Delivery) : ∀ t ∈ (deliver c i j d).ths, TP t := by
  cases hi : c.ths[i]? with
  | none =>
    have hd : deliver c i j d = c := by simp only [deliver, hi]
    rw [hd]
    exact h
  | some th =>
    obtain ⟨h2, h3⟩ := hstep c.s th j d (h th (List.getElem?_mem hi))
    cases hrep : (applyDelivery c.s th j d).2.1 with
    | none =>
      simp only [deliver, hi, hrep]
      intro t ht
      simp only [List.mem_append] at ht
      rcases ht with ht | ht
      · exact h t (List.mem_of_mem_eraseIdx ht)
      · exact h3 t ht
    | some th' =>
      simp only [deliver, hi, hrep]
      intro t ht
      simp only [List.mem_append] at ht
      rcases ht with ht | ht
      · rcases List.mem_or_eq_of_mem_set ht with ht' | rfl
        · exact h t ht'
        · exact h2 t hrep
      · exact h3 t ht

/-- `deliver_pool` folded over a whole schedule. -/
theorem run_pool {TP : Thread → Prop} {c : Config} (ds : Sched)
    (h : ∀ t ∈ c.ths, TP t)
    (hstep : ∀ s th j d, TP th →
      (∀ th', (applyDelivery s th j d).2.1 = some th' → TP th') ∧
      ∀ t ∈ (applyDelivery s th j d).2.2, TP t) :
    ∀ t ∈ (run c ds).ths, TP t := by
  induction ds generalizing c with
  | nil => exact h
  | cons e es ih => simpa [run] using ih (deliver_pool h hstep e.1 e.2.1 e.2.2)

/-! ## The statistics barrier of `updateStat` -/

/-- The in-flight `zip` of one `updateStat()` call issued on state `s`, with
its currently filled slots. -/
def statsBarrier (s : AppState) (r1 r2 r3 r4 : Option Nat) : Thread :=
  .barrier (.getTotalCountInCategory s.selectedCategory)
    (.getCompletedCountInCategory s.selectedCategory)
    (.getUncompletedCountInCategory s.selectedCategory)
    .getUncompletedTotalCount r1 r2 r3 r4 statK

/-- The in-flight `searchTasks` subscription of one `updateTasks()` call
issued on state `s`. -/
def searchWaiter (s : AppState) : Thread :=
  .waiting (.searchTasks s.selectedCategory s.searchTaskText s.statusFilter
    s.priorityFilter) tasksK

/-- The two subscriptions `updateTasksAndStat()` leaves in flight. -/
def refreshThreads (s : AppState) : List Thread :=
  [searchWaiter s, statsBarrier s none none none none]

/-- Invariant of a single in-flight `updateStat()` on initial state `s0`:
either the barrier is still pending and the state is untouched, or the
barrier is gone and the state is untouched (error) or carries one complete
four-tuple written atomically by `setStats`. -/
def StatInv (s0 : AppState) (c : Config) : Prop :=
  (∃ r1 r2 r3 r4, c = ⟨s0, [statsBarrier s0 r1 r2 r3 r4]⟩)
  ∨ (c.ths = [] ∧ (c.s = s0 ∨ ∃ a b c' d, c.s = setStats s0 a b c' d))

theorem statInv_deliver {s0 : AppState} {c : Config} (h : StatInv s0 c)
    (i j : Nat) (d : Delivery) : StatInv s0 (deliver c i j d) := by
  rcases h with ⟨r1, r2, r3, r4, rfl⟩ | ⟨hths, hs⟩
  · match i with
    | Nat.succ i' =>
      have hd : deliver ⟨s0, [statsBarrier s0 r1 r2 r3 r4]⟩ (i' + 1) j d =
          ⟨s0, [statsBarrier s0 r1 r2 r3 r4]⟩ := by
        simp only [deliver, List.getElem?_cons_succ, List.getElem?_nil]
      rw [hd]
      exact Or.inl ⟨r1, r2, r3, r4, rfl⟩
    | 0 =>
      cases d with
      | err =>
        have hd : deliver ⟨s0, [statsBarrier s0 r1 r2 r3 r4]⟩ 0 j .err =
            ⟨s0, []⟩ := rfl
        rw [hd]
        exact Or.inr ⟨rfl, Or.inl rfl⟩
      | ok r =>
        cases r with
        | count n =>
          rcases hfs : fillSlot (r1, r2, r3, r4) j n with ⟨_ | a, _ | b, _ | c', _ | d'⟩ <;>
            simp only [deliver, List.getElem?_cons_zero, statsBarrier,
              applyDelivery, hfs, sync, statK, List.eraseIdx, List.set,
              List.nil_append, List.append_nil] <;>
            first
              | exact Or.inr ⟨rfl, Or.inr ⟨_, _, _, _, rfl⟩⟩
              | exact Or.inl ⟨_, _, _, _, rfl⟩
        | tasks l => exact Or.inl ⟨r1, r2, r3, r4, rfl⟩
        | task t => exact Or.inl ⟨r1, r2, r3, r4, rfl⟩
        | category cc => exact Or.inl ⟨r1, r2, r3, r4, rfl⟩
        | categories l => exact Or.inl ⟨r1, r2, r3, r4, rfl⟩
        | unit => exact Or.inl ⟨r1, r2, r3, r4, rfl⟩
  · have hnone : c.ths[i]? = none := by rw [hths]; exact List.getElem?_nil
    have hd : deliver c i j d = c := by simp only [deliver, hnone]
    rw [hd]
    exact Or.inr ⟨hths, hs⟩

theorem statInv_run {s0 : AppState} {c : Config} (h : StatInv s0 c)
    (ds : Sched) : StatInv s0 (run c ds) := by
  induction ds generalizing c with
  | nil => exact h
  | cons e es ih => simpa [run] using ih (statInv_deliver h e.1 e.2.1 e.2.2)

/-! ## The add-task / delete-task pipeline, stage by stage -/

/-- Stage 0 of the `onAddTask`/`onDeleteTask` pipeline: only the mutation
itself is in flight. -/
def chainStart (q0 : Query) (s0 : AppState) : Config :=
  ⟨s0, [.waiting q0 recountChainK]⟩

/-- Stage 1: the mutation was confirmed with task `t`; only the
uncompleted-count recount for `t.category` is in flight. -/
def stage1Config (s0 : AppState) (t : Task) : Config :=
  ⟨s0, [.waiting (.getUncompletedCountInCategory t.category) (recountK t)]⟩

/-- Stage 2: the recount resolved with `n`; the Category Index has received
its point update (when `t` has a category) and `updateTasksAndStat()` has
left the task refresh and the statistics barrier in flight. -/
def stage2Config (s0 : AppState) (t : Task) (n : Nat) : Config :=
  ⟨applyRecount t n s0, refreshThreads (applyRecount t n s0)⟩

theorem stage1_run_cases (s0 : AppState) (t : Task) (ds : Sched) :
    run (stage1Config s0 t) ds = stage1Config s0 t
  ∨ run (stage1Config s0 t) ds = ⟨s0, []⟩
  ∨ ∃ n ds', run (stage1Config s0 t) ds = run (stage2Config s0 t n) ds' := by
  induction ds with
  | nil => exact Or.inl rfl
  | cons e es ih =>
    obtain ⟨i, j, d⟩ := e
    match i with
    | Nat.succ i' =>
      have hd : deliver (stage1Config s0 t) (i' + 1) j d = stage1Config s0 t := by
        simp only [deliver, stage1Config, List.getElem?_cons_succ, List.getElem?_nil]
      simpa [run, hd] using ih
    | 0 =>
      cases d with
      | err =>
        have hd : deliver (stage1Config s0 t) 0 j .err = ⟨s0, []⟩ := rfl
        rw [show run (stage1Config s0 t) ((0, j, Delivery.err) :: es) =
          run ⟨s0, []⟩ es from by rw [run, hd], run_empty_ths]
        exact Or.inr (Or.inl rfl)
      | ok r =>
        cases r with
        | count n =>
          have hd : deliver (stage1Config s0 t) 0 j (.ok (.count n)) =
              stage2Config s0 t n := rfl
          exact Or.inr (Or.inr ⟨n, es, by rw [run, hd]⟩)
        | tasks l =>
          rw [show run (stage1Config s0 t) ((0, j, Delivery.ok (.tasks l)) :: es) =
            run ⟨s0, []⟩ es from by rw [run]; rfl, run_empty_ths]
          exact Or.inr (Or.inl rfl)
        | task t' =>
          rw [show run (stage1Config s0 t) ((0, j, Delivery.ok (.task t')) :: es) =
            run ⟨s0, []⟩ es from by rw [run]; rfl, run_empty_ths]
          exact Or.inr (Or.inl rfl)
        | category cc =>
          rw [show run (stage1Config s0 t) ((0, j, Delivery.ok (.category cc)) :: es) =
            run ⟨s0, []⟩ es from by rw [run]; rfl, run_empty_ths]
          exact Or.inr (Or.inl rfl)
        | categories l =>
          rw [show run (stage1Config s0 t) ((0, j, Delivery.ok (.categories l)) :: es) =
            run ⟨s0, []⟩ es from by rw [run]; rfl, run_empty_ths]
          exact Or.inr (Or.inl rfl)
        | unit =>
          rw [show run (stage1Config s0 t) ((0, j, Delivery.ok .unit) :: es) =
            run ⟨s0, []⟩ es from by rw [run]; rfl, run_empty_ths]
          exact Or.inr (Or.inl rfl)

/-- Every schedule leaves the add/delete-task pipeline in one of four
stages: untouched, dead (an error or an ill-typed response tore it down),
recount in flight, or past the point update with the refresh subscriptions
live.  The recount subscription can only ever exist after the mutation's
confirmation was delivered, and the refresh subscriptions only after the
recount resolved. -/
theorem chain_run_cases (q0 : Query) (s0 : AppState) (ds : Sched) :
    run (chainStart q0 s0) ds = chainStart q0 s0
  ∨ run (chainStart q0 s0) ds = ⟨s0, []⟩
  ∨ (∃ t, run (chainStart q0 s0) ds = stage1Config s0 t)
  ∨ (∃ t n ds', run (chainStart q0 s0) ds = run (stage2Config s0 t n) ds') := by
  induction ds with
  | nil => exact Or.inl rfl
  | cons e es ih =>
    obtain ⟨i, j, d⟩ := e
    match i with
    | Nat.succ i' =>
      have hd : deliver (chainStart q0 s0) (i' + 1) j d = chainStart q0 s0 := by
        simp only [deliver, chainStart, List.getElem?_cons_succ, List.getElem?_nil]
      simpa [run, hd] using ih
    | 0 =>
      cases d with
      | err =>
        rw [show run (chainStart q0 s0) ((0, j, Delivery.err) :: es) =
          run ⟨s0, []⟩ es from by rw [run]; rfl, run_empty_ths]
        exact Or.inr (Or.inl rfl)
      | ok r =>
        cases r with
        | task t =>
          have hd : deliver (chainStart q0 s0) 0 j (.ok (.task t)) =
              stage1Config s0 t := rfl
          have hrun : run (chainStart q0 s0) ((0, j, Delivery.ok (.task t)) :: es) =
              run (stage1Config s0 t) es := by rw [run, hd]
          rw [hrun]
          rcases stage1_run_cases s0 t es with h1 | h1 | ⟨n, ds', h1⟩
          · exact Or.inr (Or.inr (Or.inl ⟨t, h1⟩))
          · exact Or.inr (Or.inl h1)
          · exact Or.inr (Or.inr (Or.inr ⟨t, n, ds', h1⟩))
        | count n =>
          rw [show run (chainStart q0 s0) ((0, j, Delivery.ok (.count n)) :: es) =
            run ⟨s0, []⟩ es from by rw [run]; rfl, run_empty_ths]
          exact Or.inr (Or.inl rfl)
        | tasks l =>
          rw [show run (chainStart q0 s0) ((0, j, Delivery.ok (.tasks l)) :: es) =
            run ⟨s0, []⟩ es from by rw [run]; rfl, run_empty_ths]
          exact Or.inr (Or.inl rfl)
        | category cc =>
          rw [show run (chainStart q0 s0) ((0, j, Delivery.ok (.category cc)) :: es) =
            run ⟨s0, []⟩ es from by rw [run]; rfl, run_empty_ths]
          exact Or.inr (Or.inl rfl)
        | categories l =>
          rw [show run (chainStart q0 s0) ((0, j, Delivery.ok (.categories l)) :: es) =
            run ⟨s0, []⟩ es from by rw [run]; rfl, run_empty_ths]
          exact Or.inr (Or.inl rfl)
        | unit =>
          rw [show run (chainStart q0 s0) ((0, j, Delivery.ok .unit) :: es) =
            run ⟨s0, []⟩ es from by rw [run]; rfl, run_empty_ths]
          exact Or.inr (Or.inl rfl)

/-! ## Shape of the refresh pool left by `updateTasksAndStat()` -/

/-- A subscription belonging to a task-list refresh or a statistics
recompute: the `searchTasks` waiter of some `updateTasks()` call, or the
statistics barrier of some `updateStat()` call (with any filled slots).
Neither ever issues a further query or writes the Category Index. -/
def RefreshThread (th : Thread) : Prop :=
  (∃ s, th = searchWaiter s) ∨ (∃ s r1 r2 r3 r4, th = statsBarrier s r1 r2 r3 r4)

theorem refreshThread_step (s : AppState) (th : Thread) (j : Nat) (d : Delivery)
    (h : RefreshThread th) :
    (∀ th', (applyDelivery s th j d).2.1 = some th' → RefreshThread th') ∧
    ∀ t ∈ (applyDelivery s th j d).2.2, RefreshThread t := by
  rcases h with ⟨s', rfl⟩ | ⟨s', r1, r2, r3, r4, rfl⟩
  · cases d with
    | ok r =>
      cases r <;>
        exact ⟨by simp [searchWaiter, applyDelivery],
          by simp [searchWaiter, applyDelivery, sync, tasksK]⟩
    | err => exact ⟨by simp [searchWaiter, applyDelivery], by simp [searchWaiter, applyDelivery]⟩
  · cases d with
    | err =>
      exact ⟨by simp [statsBarrier, applyDelivery], by simp [statsBarrier, applyDelivery]⟩
    | ok r =>
      cases r with
      | count n =>
        rcases hfs : fillSlot (r1, r2, r3, r4) j n with ⟨_ | a, _ | b, _ | c', _ | d'⟩ <;>
          simp only [statsBarrier, applyDelivery, hfs, sync, statK] <;>
          refine ⟨?_, by simp⟩ <;>
          intro th' hth' <;>
          simp at hth' <;>
          first
            | exact absurd hth' (by simp)
            | (subst hth'; exact Or.inr ⟨s', _, _, _, _, rfl⟩)
      | tasks l =>
        refine ⟨?_, by simp [statsBarrier, applyDelivery]⟩
        intro th' hth'
        simp [statsBarrier, applyDelivery] at hth'
        subst hth'
        exact Or.inr ⟨s', r1, r2, r3, r4, rfl⟩
      | task t =>
        refine ⟨?_, by simp [statsBarrier, applyDelivery]⟩
        intro th' hth'
        simp [statsBarrier, applyDelivery] at hth'
        subst hth'
        exact Or.inr ⟨s', r1, r2, r3, r4, rfl⟩
      | category cc =>
        refine ⟨?_, by simp [statsBarrier, applyDelivery]⟩
        intro th' hth'
        simp [statsBarrier, applyDelivery] at hth'
        subst hth'
        exact Or.inr ⟨s', r1, r2, r3, r4, rfl⟩
      | categories l =>
        refine ⟨?_, by simp [statsBarrier, applyDelivery]⟩
        intro th' hth'
        simp [statsBarrier, applyDelivery] at hth'
        subst hth'
        exact Or.inr ⟨s', r1, r2, r3, r4, rfl⟩
      | unit =>
        refine ⟨?_, by simp [statsBarrier, applyDelivery]⟩
        intro th' hth'
        simp [statsBarrier, applyDelivery] at hth'
        subst hth'
        exact Or.inr ⟨s', r1, r2, r3, r4, rfl⟩

/-- Every subscription ever in flight after `updateTasksAndStat()` is a
refresh subscription: in particular no mutation, recount or
category-search operation is among them. -/
theorem stage2_pool (s0 : AppState) (t : Task) (n : Nat) (ds : Sched) :
    ∀ th ∈ (run (stage2Config s0 t n) ds).ths, RefreshThread th := by
  refine run_pool ds ?_ (fun s th j d h => refreshThread_step s th j d h)
  intro th hth
  simp only [stage2Config, refreshThreads, List.mem_cons, List.mem_singleton] at hth
  rcases hth with rfl | rfl | h
  · exact Or.inl ⟨_, rfl⟩
  · exact Or.inr ⟨_, none, none, none, none, rfl⟩
  · exact absurd h (List.not_mem_nil _)

/-- The four statistics count operations of the facade. -/
def Query.isCountQuery : Query → Bool
  | .getUncompletedCountInCategory _ => true
  | .getTotalCountInCategory _ => true
  | .getCompletedCountInCategory _ => true
  | .getUncompletedTotalCount => true
  | _ => false

/-- A refresh subscription only ever waits on `searchTasks` or on count
queries - never on a mutation. -/
theorem refreshThread_pending {th : Thread} (h : RefreshThread th) :
    ∀ q ∈ th.pendingQueries,
      (∃ cat text st pr, q = .searchTasks cat text st pr) ∨ q.isCountQuery = true := by
  rcases h with ⟨s', rfl⟩ | ⟨s', r1, r2, r3, r4, rfl⟩
  · intro q hq
    simp [searchWaiter, Thread.pendingQueries] at hq
    subst hq
    exact Or.inl ⟨_, _, _, _, rfl⟩
  · intro q hq
    simp only [statsBarrier, Thread.pendingQueries, List.mem_append] at hq
    rcases hq with ((hq | hq) | hq) | hq <;>
      · right
        split at hq <;> simp_all [Query.isCountQuery]

/-- No refresh subscription is a plain waiter on a count query (the point
recount of the add/delete-task pipeline is; the statistics count queries sit
inside a barrier instead). -/
theorem refreshThread_not_recount {th : Thread} (h : RefreshThread th)
    (oc : Option Category) (k : RespData → Proc) :
    th ≠ .waiting (.getUncompletedCountInCategory oc) k := by
  rcases h with ⟨s', rfl⟩ | ⟨s', r1, r2, r3, r4, rfl⟩ <;> simp [searchWaiter, statsBarrier]

/-- The Category Index is never written again after the point update of the
add/delete-task pipeline: the refresh subscriptions left by
`updateTasksAndStat()` only write `tasks` and the statistics fields. -/
theorem stage2_categoryMap (s0 : AppState) (t : Task) (n : Nat) (ds : Sched) :
    (run (stage2Config s0 t n) ds).s.categoryMap = (applyRecount t n s0).categoryMap := by
  have h := run_frames (π := fun s => s.categoryMap) (c := stage2Config s0 t n) ds ?_
  · exact h.1
  · intro th hth
    simp only [stage2Config, refreshThreads, List.mem_cons, List.mem_singleton] at hth
    rcases hth with rfl | rfl | h'
    · intro d
      cases d <;> simp [searchWaiter, ThreadFrames, FramesOn, tasksK]
    · intro a b c' d'
      simp [statsBarrier, ThreadFrames, FramesOn, statK, setStats]
    · exact absurd h' (List.not_mem_nil _)

/-- If a whole handler frames a projection, every schedule of its run
preserves that projection. -/
theorem run_start_frames {α : Type} {π : AppState → α} {p : Proc}
    (h : FramesOn π p) (s0 : AppState) (ds : Sched) :
    π (run (start p s0) ds).s = π s0 := by
  obtain ⟨h1, h2⟩ := sync_frames h s0
  have hths : ∀ t ∈ (start p s0).ths, ThreadFrames π t := by
    intro t ht
    simp only [start, invoke, List.nil_append] at ht
    exact h2 t ht
  have h3 := (run_frames ds hths).1
  rw [h3]
  exact h1

/-- If a whole handler can only ever issue queries satisfying `P`, every
pending query along any schedule of its run satisfies `P`. -/
theorem run_start_issues {P : Query → Prop} {p : Proc}
    (h : IssuesOnly P p) (s0 : AppState) (ds : Sched) :
    ∀ q ∈ (run (start p s0) ds).pendingQueries, P q := by
  apply run_issues
  intro t ht
  simp only [start, invoke, List.nil_append] at ht
  exact sync_issues h s0 t ht

/-- The three task-filter handlers all have the shape
`field assignment; updateTasks()`; their single in-flight subscription only
ever writes `tasks`. -/
theorem run_start_act_updateTasks_frames {α : Type} (π : AppState → α)
    (hπ : ∀ s l, π { s with tasks := l } = π s)
    (f : AppState → AppState) (s0 : AppState) (ds : Sched) :
    π (run (start (.act f updateTasks) s0) ds).s = π (f s0) := by
  have hths : ∀ t ∈ (start (.act f updateTasks) s0).ths, ThreadFrames π t := by
    intro t ht
    simp only [start, invoke, sync, updateTasks, List.nil_append,
      List.mem_singleton] at ht
    subst ht
    intro d
    cases d <;> simp [FramesOn, tasksK, hπ]
  exact (run_frames ds hths).1

/-- Any handler of the shape `field assignment; updateTasks()` can only ever
have the one `searchTasks` operation in flight: in particular it never
issues a count query, so it triggers no statistics recompute and no
Category Index write. -/
theorem run_start_act_updateTasks_queries (f : AppState → AppState)
    (s0 : AppState) (ds : Sched) :
    ∀ q ∈ (run (start (.act f updateTasks) s0) ds).pendingQueries,
      ∃ cat text st pr, q = .searchTasks cat text st pr := by
  apply run_start_issues
  refine ⟨fun s => ⟨_, _, _, _, rfl⟩, ?_⟩
  intro d
  cases d <;> simp [IssuesOnly, tasksK]

/-! ## Concrete fixtures for witnesses and counterexamples -/

/-- A category fixture. -/
def catWork : Category := ⟨1, "Work"⟩

/-- A second category fixture. -/
def catHome : Category := ⟨2, "Home"⟩

/-- An uncompleted task in category `catWork`. -/
def taskWork : Task := ⟨1, "write report", false, 0, none, some catWork⟩

/-- A task with no category. -/
def taskNoCat : Task := ⟨2, "buy milk", false, 0, none, none⟩

/-- A concrete quiescent component state (desktop layout, "All" selected). -/
def baseState : AppState where
  categoryMap := [(catWork, 3)]
  tasks := []
  categories := [catWork, catHome]
  priorities := []
  totalTasksCountInCategory := 0
  completedCountInCategory := 0
  uncompletedCountInCategory := 0
  uncompletedTotalTasksCount := 0
  showStat := true
  selectedCategory := none
  searchTaskText := ""
  searchCategoryText := ""
  priorityFilter := none
  statusFilter := none
  menuOpened := true
  menuMode := "push"
  menuPosition := "left"
  showBackdrop := false
  isMobile := false
  isTablet := false

/-! ## Claim theorems -/

/-- C4: every statistics recompute issues the four count queries
(total-in-category, completed-in-category, uncompleted-in-category,
uncompleted-total-global) and joins them only once all four have completed;
as long as the barrier is pending the state is untouched, and any reachable
state either still carries the previous statistics tuple or carries a
complete new four-tuple written by the single `setStats` block - an observer
never sees a mix of old and new fields. -/
theorem c4_statistics_barrier_atomic (s0 : AppState) (ds : Sched) :
    (start updateStat s0).pendingQueries =
      [.getTotalCountInCategory s0.selectedCategory,
       .getCompletedCountInCategory s0.selectedCategory,
       .getUncompletedCountInCategory s0.selectedCategory,
       .getUncompletedTotalCount] ∧
    ((run (start updateStat s0) ds).ths ≠ [] → (run (start updateStat s0) ds).s = s0) ∧
    ((run (start updateStat s0) ds).s = s0 ∨
      ∃ a b c d, (run (start updateStat s0) ds).s = setStats s0 a b c d) := by
  have h0 : StatInv s0 (start updateStat s0) := Or.inl ⟨none, none, none, none, rfl⟩
  have h := statInv_run h0 ds
  refine ⟨?_, ?_, ?_⟩
  · simp [start, invoke, sync, updateStat, Config.pendingQueries,
      Thread.pendingQueries]
  · intro hne
    rcases h with ⟨r1, r2, r3, r4, heq⟩ | ⟨hths, hs⟩
    · rw [heq]
    · exact absurd hths hne
  · rcases h with ⟨r1, r2, r3, r4, heq⟩ | ⟨hths, hs⟩
    · exact Or.inl (by rw [heq])
    · exact hs

/-- Witness for c4: with nothing delivered yet the barrier is pending and
the statistics fields are untouched. -/
theorem c4_statistics_barrier_atomic_witness :
    (run (start updateStat baseState) []).s = baseState :=
  (c4_statistics_barrier_atomic baseState []).2.1 (List.cons_ne_nil _ _)

/-- C7: if any one of the four count queries of a statistics recompute fails
while the barrier has not yet fired, the whole tuple is withheld: the `zip`
is torn down, nothing is ever published afterwards, and the state - in
particular all four statistics fields - keeps its previous value for the
rest of the run. -/
theorem c7_statistics_error_withheld (s0 : AppState) (j : Nat) (ds ds' : Sched)
    (h : (run (start updateStat s0) ds).ths ≠ []) :
    run (start updateStat s0) (ds ++ (0, j, .err) :: ds') = ⟨s0, []⟩ := by
  have h0 : StatInv s0 (start updateStat s0) := Or.inl ⟨none, none, none, none, rfl⟩
  rcases statInv_run h0 ds with ⟨r1, r2, r3, r4, heq⟩ | ⟨hths, _⟩
  · rw [run_append, heq]
    have hd : deliver ⟨s0, [statsBarrier s0 r1 r2 r3 r4]⟩ 0 j .err = ⟨s0, []⟩ := rfl
    rw [run, hd, run_empty_ths]
  · exact absurd hths h

/-- Witness for c7: the very first of the four count queries fails; the
statistics keep their last known-good values. -/
theorem c7_statistics_error_withheld_witness :
    run (start updateStat baseState) ([] ++ (0, 0, Delivery.err) :: []) =
      ⟨baseState, []⟩ :=
  c7_statistics_error_withheld baseState 0 [] [] (List.cons_ne_nil _ _)

/-- C6: a delete-category action issues only the facade delete; once the
facade confirms it with the deleted entity, the selection is reset to "All"
(null), the entry is removed from the Category Index by a point
`mapDelete` (not a rebuild), the category search is re-issued with the
existing category search text, and the task list is re-queried under the
"All" filter (category argument null). -/
theorem c6_delete_category (lc : String → String → Int) (s0 : AppState)
    (c cat : Category) :
    (start (onDeleteCategory lc c) s0).pendingQueries = [.deleteCategory c.id] ∧
    (run (start (onDeleteCategory lc c) s0)
      [(0, 0, .ok (.category cat))]).s.selectedCategory = none ∧
    (run (start (onDeleteCategory lc c) s0)
      [(0, 0, .ok (.category cat))]).s.categoryMap = mapDelete s0.categoryMap cat ∧
    (run (start (onDeleteCategory lc c) s0)
      [(0, 0, .ok (.category cat))]).pendingQueries =
      [.searchCategories s0.searchCategoryText,
       .searchTasks none s0.searchTaskText s0.statusFilter s0.priorityFilter] := by
  refine ⟨?_, rfl, rfl, ?_⟩
  · simp [start, invoke, sync, onDeleteCategory, Config.pendingQueries,
      Thread.pendingQueries]
  · simp [start, invoke, sync, onDeleteCategory, updateTasks, run, deliver,
      applyDelivery, Config.pendingQueries, Thread.pendingQueries]

/-- C10: when the task returned by the facade for an add or a delete has no
category, the uncompleted-count query for the null category is still issued
after the mutation confirms, but its result is discarded: the Category Index
is left entirely unchanged for the rest of the operation. -/
theorem c10_null_category_recount_discarded :
    (∀ (t t' : Task) (s0 : AppState) (j : Nat), t'.category = none →
      (run (start (onAddTask t) s0) [(0, j, .ok (.task t'))]).pendingQueries
        = [.getUncompletedCountInCategory none]) ∧
    (∀ (t t' : Task) (s0 : AppState) (j : Nat), t'.category = none →
      (run (start (onDeleteTask t) s0) [(0, j, .ok (.task t'))]).pendingQueries
        = [.getUncompletedCountInCategory none]) ∧
    (∀ (s0 : AppState) (t' : Task) (n : Nat) (ds : Sched), t'.category = none →
      (run (stage2Config s0 t' n) ds).s.categoryMap = s0.categoryMap) := by
  refine ⟨?_, ?_, ?_⟩
  · intro t t' s0 j h
    have hrun : run (start (onAddTask t) s0) [(0, j, .ok (.task t'))]
        = stage1Config s0 t' := rfl
    rw [hrun]
    simp [stage1Config, Config.pendingQueries, Thread.pendingQueries, h]
  · intro t t' s0 j h
    have hrun : run (start (onDeleteTask t) s0) [(0, j, .ok (.task t'))]
        = stage1Config s0 t' := rfl
    rw [hrun]
    simp [stage1Config, Config.pendingQueries, Thread.pendingQueries, h]
  · intro s0 t' n ds h
    rw [stage2_categoryMap]
    simp [applyRecount, h]

/-- Witness for c10: adding `taskNoCat` (no category), the facade echoes it
back; the null-category recount is in flight right after the confirmation. -/
theorem c10_null_category_recount_discarded_witness :
    (run (start (onAddTask taskNoCat) baseState)
      [(0, 0, .ok (.task taskNoCat))]).pendingQueries
      = [.getUncompletedCountInCategory none] :=
  c10_null_category_recount_discarded.1 taskNoCat taskNoCat baseState 0 rfl

/-- C2 counterexample: the claim says the recount is skipped when the
created task has no category; in the code the `concatMap` issues
`getUncompletedCountInCategory(task.category)` unconditionally, so after the
facade returns the category-less created task the null-category recount is
in flight. -/
theorem c2_add_task_counterexample :
    .getUncompletedCountInCategory none ∈
      (run (start (onAddTask taskNoCat) baseState)
        [(0, 0, .ok (.task taskNoCat))]).pendingQueries := by
  decide

/-- C2 (amended): an add-task action first issues only the facade create;
only after the created task is returned is the uncompleted-count recount
issued - for the created task's own category, and unconditionally, also when
that category is null; when the recount resolves, its result is applied as a
single point update to the Category Index via `mapSet` exactly when the task
has a category (and discarded otherwise), and the Category Index is never
changed in any other way during the operation. -/
theorem c2_add_task_amended :
    (∀ (t : Task) (s0 : AppState),
      start (onAddTask t) s0 = chainStart (.addTask t) s0) ∧
    (∀ (t : Task) (s0 : AppState),
      (start (onAddTask t) s0).pendingQueries = [.addTask t]) ∧
    (∀ (t t' : Task) (s0 : AppState) (j : Nat),
      run (start (onAddTask t) s0) [(0, j, .ok (.task t'))] = stage1Config s0 t') ∧
    (∀ (s0 : AppState) (t' : Task),
      (stage1Config s0 t').pendingQueries
        = [.getUncompletedCountInCategory t'.category]) ∧
    (∀ (t t' : Task) (n : Nat) (s0 : AppState) (j j' : Nat),
      run (start (onAddTask t) s0) [(0, j, .ok (.task t')), (0, j', .ok (.count n))]
        = stage2Config s0 t' n) ∧
    (∀ (s0 : AppState) (t' : Task) (n : Nat) (c : Category), t'.category = some c →
      (stage2Config s0 t' n).s.categoryMap = mapSet s0.categoryMap c n) ∧
    (∀ (t : Task) (s0 : AppState) (ds : Sched),
      (run (start (onAddTask t) s0) ds).s.categoryMap = s0.categoryMap ∨
      ∃ t' n, (run (start (onAddTask t) s0) ds).s.categoryMap
        = (applyRecount t' n s0).categoryMap) := by
  refine ⟨fun t s0 => rfl, ?_, fun t t' s0 j => rfl, ?_, fun t t' n s0 j j' => rfl,
    ?_, ?_⟩
  · intro t s0
    simp [start, invoke, sync, onAddTask, Config.pendingQueries,
      Thread.pendingQueries]
  · intro s0 t'
    simp [stage1Config, Config.pendingQueries, Thread.pendingQueries]
  · intro s0 t' n c h
    show (applyRecount t' n s0).categoryMap = mapSet s0.categoryMap c n
    simp [applyRecount, h]
  · intro t s0 ds
    have hstart : start (onAddTask t) s0 = chainStart (.addTask t) s0 := rfl
    rw [hstart]
    rcases chain_run_cases (.addTask t) s0 ds with h | h | ⟨t', h⟩ | ⟨t', n, ds', h⟩
    · rw [h]; exact Or.inl rfl
    · rw [h]; exact Or.inl rfl
    · rw [h]; exact Or.inl rfl
    · rw [h]; exact Or.inr ⟨t', n, stage2_categoryMap s0 t' n ds'⟩

/-- Witness for c2 (amended): the facade returns a created task in category
`catWork`; after the recount resolves with 4, the Category Index holds the
point update `mapSet _ catWork 4`. -/
theorem c2_add_task_amended_witness :
    (stage2Config baseState taskWork 4).s.categoryMap
      = mapSet baseState.categoryMap catWork 4 :=
  c2_add_task_amended.2.2.2.2.2.1 baseState taskWork 4 catWork rfl

/-- C3 counterexample: the task-list refresh does not proceed independently
of the delete-then-recount chain.  At invocation only the delete is in
flight; after the delete confirmation only the recount is in flight - no
`searchTasks` has been issued; the refresh and the statistics queries appear
only once the recount has resolved. -/
theorem c3_delete_task_counterexample :
    (start (onDeleteTask taskWork) baseState).pendingQueries
      = [.deleteTask 1] ∧
    (run (start (onDeleteTask taskWork) baseState)
      [(0, 0, .ok (.task taskWork))]).pendingQueries
      = [.getUncompletedCountInCategory (some catWork)] ∧
    (run (start (onDeleteTask taskWork) baseState)
      [(0, 0, .ok (.task taskWork)), (0, 0, .ok (.count 2))]).pendingQueries
      = [.searchTasks none "" none none,
         .getTotalCountInCategory none, .getCompletedCountInCategory none,
         .getUncompletedCountInCategory none, .getUncompletedTotalCount] := by
  refine ⟨by decide, by decide, by decide⟩

/-- C3 (amended): for every delete-task action the delete confirmation
resolves before the category recount is issued - while the delete is
unconfirmed it is the only operation in flight and the state is untouched;
while the recount is in flight the delete has already resolved and the
Category Index is still untouched; the Category Index only ever moves by the
single point update computed from the post-delete recount; and the task-list
refresh and statistics recompute are in flight only once the whole
delete-then-recount chain has resolved (they are sequenced after it, not
independent of it). -/
theorem c3_delete_task_amended :
    (∀ (t : Task) (s0 : AppState),
      start (onDeleteTask t) s0 = chainStart (.deleteTask t.id) s0) ∧
    (∀ (t : Task) (s0 : AppState) (ds : Sched),
      .deleteTask t.id ∈ (run (start (onDeleteTask t) s0) ds).pendingQueries →
      run (start (onDeleteTask t) s0) ds = chainStart (.deleteTask t.id) s0) ∧
    (∀ (t : Task) (s0 : AppState) (ds : Sched) (oc : Option Category)
        (k : RespData → Proc),
      Thread.waiting (.getUncompletedCountInCategory oc) k
          ∈ (run (start (onDeleteTask t) s0) ds).ths →
      (run (start (onDeleteTask t) s0) ds).s = s0 ∧
      .deleteTask t.id ∉ (run (start (onDeleteTask t) s0) ds).pendingQueries) ∧
    (∀ (t : Task) (s0 : AppState) (ds : Sched),
      (run (start (onDeleteTask t) s0) ds).s.categoryMap = s0.categoryMap ∨
      ∃ t' n, (run (start (onDeleteTask t) s0) ds).s.categoryMap
        = (applyRecount t' n s0).categoryMap) ∧
    (∀ (t : Task) (s0 : AppState) (ds : Sched) (cat : Option Category)
        (text : String) (st : Option Bool) (pr : Option Priority)
        (k : RespData → Proc),
      Thread.waiting (.searchTasks cat text st pr) k
          ∈ (run (start (onDeleteTask t) s0) ds).ths →
      .deleteTask t.id ∉ (run (start (onDeleteTask t) s0) ds).pendingQueries ∧
      ∀ (oc : Option Category) (k' : RespData → Proc),
        Thread.waiting (.getUncompletedCountInCategory oc) k'
          ∉ (run (start (onDeleteTask t) s0) ds).ths) := by
  have hstart : ∀ (t : Task) (s0 : AppState),
      start (onDeleteTask t) s0 = chainStart (.deleteTask t.id) s0 :=
    fun t s0 => rfl
  have hpendD : ∀ (t : Task) (s0 : AppState) (t' : Task) (n : Nat) (ds' : Sched),
      .deleteTask t.id ∉ (run (stage2Config s0 t' n) ds').pendingQueries := by
    intro t s0 t' n ds' hmem
    simp only [Config.pendingQueries, List.mem_flatten, List.mem_map] at hmem
    obtain ⟨l, ⟨th, hth, rfl⟩, hql⟩ := hmem
    have hr := stage2_pool s0 t' n ds' th hth
    rcases refreshThread_pending hr _ hql with ⟨cat, text, st, pr, heq⟩ | hc
    · exact absurd heq (by simp)
    · simp [Query.isCountQuery] at hc
  refine ⟨hstart, ?_, ?_, ?_, ?_⟩
  · intro t s0 ds hmem
    rw [hstart] at hmem ⊢
    rcases chain_run_cases (.deleteTask t.id) s0 ds with h | h | ⟨t', h⟩ |
      ⟨t', n, ds', h⟩
    · exact h
    · rw [h] at hmem
      simp [Config.pendingQueries] at hmem
    · rw [h] at hmem
      simp [stage1Config, Config.pendingQueries, Thread.pendingQueries] at hmem
    · rw [h] at hmem
      exact absurd hmem (hpendD t s0 t' n ds')
  · intro t s0 ds oc k hmem
    rw [hstart] at hmem ⊢
    rcases chain_run_cases (.deleteTask t.id) s0 ds with h | h | ⟨t', h⟩ |
      ⟨t', n, ds', h⟩
    · rw [h] at hmem
      simp [chainStart] at hmem
    · rw [h] at hmem
      simp at hmem
    · rw [h]
      constructor
      · rfl
      · intro hmem'
        simp [chainStart, stage1Config, Config.pendingQueries,
          Thread.pendingQueries] at hmem'
    · rw [h] at hmem
      exact absurd rfl (refreshThread_not_recount (stage2_pool s0 t' n ds' _ hmem) oc k)
  · intro t s0 ds
    rw [hstart]
    rcases chain_run_cases (.deleteTask t.id) s0 ds with h | h | ⟨t', h⟩ |
      ⟨t', n, ds', h⟩
    · rw [h]; exact Or.inl rfl
    · rw [h]; exact Or.inl rfl
    · rw [h]; exact Or.inl rfl
    · rw [h]; exact Or.inr ⟨t', n, stage2_categoryMap s0 t' n ds'⟩
  · intro t s0 ds cat text st pr k hmem
    rw [hstart] at hmem ⊢
    rcases chain_run_cases (.deleteTask t.id) s0 ds with h | h | ⟨t', h⟩ |
      ⟨t', n, ds', h⟩
    · rw [h] at hmem
      simp [chainStart] at hmem
    · rw [h] at hmem
      simp at hmem
    · rw [h] at hmem
      simp [stage1Config] at hmem
    · rw [h]
      refine ⟨hpendD t s0 t' n ds', ?_⟩
      intro oc k' hmem'
      exact absurd rfl (refreshThread_not_recount (stage2_pool s0 t' n ds' _ hmem') oc k')

/-- Witness for c3 (amended): with nothing delivered yet the delete is still
pending, so the configuration is exactly the initial chain configuration. -/
theorem c3_delete_task_amended_witness :
    run (start (onDeleteTask taskWork) baseState) []
      = chainStart (.deleteTask taskWork.id) baseState :=
  c3_delete_task_amended.2.1 taskWork baseState [] (by decide)

/-- C1 counterexample: a change of the task search text never triggers a
statistics recompute - over every delivery schedule, no count query is ever
in flight for `onSearchTasks` (the handler calls `updateTasks()` only, not
`updateTasksAndStat()`). -/
theorem c1_filter_changes_counterexample :
    ¬ ∃ (ds : Sched) (q : Query),
      q ∈ (run (start (onSearchTasks "x") baseState) ds).pendingQueries ∧
      q.isCountQuery = true := by
  rintro ⟨ds, q, hq, hc⟩
  obtain ⟨cat, text, st, pr, rfl⟩ :=
    run_start_act_updateTasks_queries
      (fun s => { s with searchTaskText := "x" }) baseState ds q hq
  simp [Query.isCountQuery] at hc

/-- C1 (amended): a category selection triggers a task-list refresh and a
statistics recompute for the newly selected category; a change of the task
search text, the status filter or the priority filter issues exactly one
task-list refresh - the `searchTasks` query carrying the new filter value
together with the unchanged remaining filters - and no count query is ever
issued, hence no statistics recompute; none of the four filter changes ever
touches the Category Index, over any delivery schedule. -/
theorem c1_filter_changes_amended :
    (∀ (s0 : AppState) (c : Option Category) (ds : Sched),
      (run (start (onSelectCategory c) s0) ds).s.categoryMap = s0.categoryMap) ∧
    (∀ (s0 : AppState) (c : Option Category),
      (start (onSelectCategory c) s0).pendingQueries =
        [.searchTasks c s0.searchTaskText s0.statusFilter s0.priorityFilter,
         .getTotalCountInCategory c, .getCompletedCountInCategory c,
         .getUncompletedCountInCategory c, .getUncompletedTotalCount]) ∧
    (∀ (s0 : AppState) (str : String) (ds : Sched),
      (start (onSearchTasks str) s0).pendingQueries =
        [.searchTasks s0.selectedCategory str s0.statusFilter s0.priorityFilter] ∧
      (run (start (onSearchTasks str) s0) ds).s.categoryMap = s0.categoryMap ∧
      ∀ q ∈ (run (start (onSearchTasks str) s0) ds).pendingQueries,
        q.isCountQuery = false) ∧
    (∀ (s0 : AppState) (st : Option Bool) (ds : Sched),
      (start (onFilterTasksByStatus st) s0).pendingQueries =
        [.searchTasks s0.selectedCategory s0.searchTaskText st s0.priorityFilter] ∧
      (run (start (onFilterTasksByStatus st) s0) ds).s.categoryMap = s0.categoryMap ∧
      ∀ q ∈ (run (start (onFilterTasksByStatus st) s0) ds).pendingQueries,
        q.isCountQuery = false) ∧
    (∀ (s0 : AppState) (pr : Option Priority) (ds : Sched),
      (start (onFilterTasksByPriority pr) s0).pendingQueries =
        [.searchTasks s0.selectedCategory s0.searchTaskText s0.statusFilter pr] ∧
      (run (start (onFilterTasksByPriority pr) s0) ds).s.categoryMap = s0.categoryMap ∧
      ∀ q ∈ (run (start (onFilterTasksByPriority pr) s0) ds).pendingQueries,
        q.isCountQuery = false) := by
  refine ⟨?_, ?_, ?_, ?_, ?_⟩
  · intro s0 c ds
    have hf : FramesOn (fun s : AppState => s.categoryMap) (onSelectCategory c) := by
      refine ⟨fun s => rfl, ⟨?_, ?_⟩, ?_, trivial⟩
      · intro d
        cases d <;> simp [tasksK, FramesOn]
      · intro a b c' d'
        simp [statK, FramesOn, setStats]
      · intro s
        rfl
    exact run_start_frames hf s0 ds
  · intro s0 c
    simp [start, invoke, sync, onSelectCategory, updateTasksAndStat,
      updateTasks, updateStat, Config.pendingQueries, Thread.pendingQueries]
  · intro s0 str ds
    refine ⟨?_, run_start_act_updateTasks_frames (fun s => s.categoryMap)
      (fun s l => rfl) _ s0 ds, ?_⟩
    · simp [start, invoke, sync, onSearchTasks, updateTasks,
        Config.pendingQueries, Thread.pendingQueries]
    · intro q hq
      obtain ⟨cat, text, st', pr', rfl⟩ :=
        run_start_act_updateTasks_queries
          (fun s => { s with searchTaskText := str }) s0 ds q hq
      rfl
  · intro s0 st ds
    refine ⟨?_, run_start_act_updateTasks_frames (fun s => s.categoryMap)
      (fun s l => rfl) _ s0 ds, ?_⟩
    · simp [start, invoke, sync, onFilterTasksByStatus, updateTasks,
        Config.pendingQueries, Thread.pendingQueries]
    · intro q hq
      obtain ⟨cat, text, st', pr', rfl⟩ :=
        run_start_act_updateTasks_queries
          (fun s => { s with statusFilter := st }) s0 ds q hq
      rfl
  · intro s0 pr ds
    refine ⟨?_, run_start_act_updateTasks_frames (fun s => s.categoryMap)
      (fun s l => rfl) _ s0 ds, ?_⟩
    · simp [start, invoke, sync, onFilterTasksByPriority, updateTasks,
        Config.pendingQueries, Thread.pendingQueries]
    · intro q hq
      obtain ⟨cat, text, st', pr', rfl⟩ :=
        run_start_act_updateTasks_queries
          (fun s => { s with priorityFilter := pr }) s0 ds q hq
      rfl

/-- The fields C9 asserts unchanged by a task-search-text change: the
Category Index, the selection, the other filter fields and the four
statistics fields. -/
def frameAfterSearch (s : AppState) :
    List (Category × Nat) × Option Category × String × Option Bool ×
    Option Priority × Nat × Nat × Nat × Nat :=
  (s.categoryMap, s.selectedCategory, s.searchCategoryText, s.statusFilter,
   s.priorityFilter, s.totalTasksCountInCategory, s.completedCountInCategory,
   s.uncompletedCountInCategory, s.uncompletedTotalTasksCount)

/-- The fields C9 asserts unchanged by a status-filter change. -/
def frameAfterStatus (s : AppState) :
    List (Category × Nat) × Option Category × String × String ×
    Option Priority × Nat × Nat × Nat × Nat :=
  (s.categoryMap, s.selectedCategory, s.searchTaskText, s.searchCategoryText,
   s.priorityFilter, s.totalTasksCountInCategory, s.completedCountInCategory,
   s.uncompletedCountInCategory, s.uncompletedTotalTasksCount)

/-- The fields C9 asserts unchanged by a priority-filter change. -/
def frameAfterPriority (s : AppState) :
    List (Category × Nat) × Option Category × String × String ×
    Option Bool × Nat × Nat × Nat × Nat :=
  (s.categoryMap, s.selectedCategory, s.searchTaskText, s.searchCategoryText,
   s.statusFilter, s.totalTasksCountInCategory, s.completedCountInCategory,
   s.uncompletedCountInCategory, s.uncompletedTotalTasksCount)

/-- C9: changing the task search text, the status filter or the priority
filter records exactly that one filter field (and later at most the
displayed task list); over every delivery schedule the Category Index, the
selected category, the other filter fields and the four statistics fields
are left unchanged. -/
theorem c9_filter_frame_effects :
    (∀ (s0 : AppState) (str : String) (ds : Sched),
      (run (start (onSearchTasks str) s0) ds).s.searchTaskText = str ∧
      frameAfterSearch (run (start (onSearchTasks str) s0) ds).s
        = frameAfterSearch s0) ∧
    (∀ (s0 : AppState) (st : Option Bool) (ds : Sched),
      (run (start (onFilterTasksByStatus st) s0) ds).s.statusFilter = st ∧
      frameAfterStatus (run (start (onFilterTasksByStatus st) s0) ds).s
        = frameAfterStatus s0) ∧
    (∀ (s0 : AppState) (pr : Option Priority) (ds : Sched),
      (run (start (onFilterTasksByPriority pr) s0) ds).s.priorityFilter = pr ∧
      frameAfterPriority (run (start (onFilterTasksByPriority pr) s0) ds).s
        = frameAfterPriority s0) := by
  refine ⟨?_, ?_, ?_⟩
  · intro s0 str ds
    exact ⟨run_start_act_updateTasks_frames (fun s => s.searchTaskText)
        (fun s l => rfl) _ s0 ds,
      run_start_act_updateTasks_frames frameAfterSearch (fun s l => rfl) _ s0 ds⟩
  · intro s0 st ds
    exact ⟨run_start_act_updateTasks_frames (fun s => s.statusFilter)
        (fun s l => rfl) _ s0 ds,
      run_start_act_updateTasks_frames frameAfterStatus (fun s l => rfl) _ s0 ds⟩
  · intro s0 pr ds
    exact ⟨run_start_act_updateTasks_frames (fun s => s.priorityFilter)
        (fun s l => rfl) _ s0 ds,
      run_start_act_updateTasks_frames frameAfterPriority (fun s l => rfl) _ s0 ds⟩

/-- Two category selections in quick succession: the second arrives before
any response to the first; the pool then holds, in order, the first
selection's `searchTasks` waiter (index 0) and statistics barrier (index 1)
and the second selection's waiter (index 2) and barrier (index 3). -/
def twoSelects (s0 : AppState) (c1 c2 : Option Category) : Config :=
  invoke (invoke ⟨s0, []⟩ (onSelectCategory c1)) (onSelectCategory c2)

/-- C5 counterexample: the filter is changed to `catWork` and then to
`catHome` before any count resolves.  The `catHome` barrier (the last
issued) resolves first with the tuple 21-24, which is published; then the
stale `catWork` barrier resolves with 11-14 and overwrites it: the published
current statistics end up being the tuple of the first-issued recompute,
while the selection is `catHome` - the earlier in-flight barrier is not
discarded. -/
theorem c5_last_writer_counterexample :
    (run (twoSelects baseState (some catWork) (some catHome))
      [(3, 0, .ok (.count 21)), (3, 1, .ok (.count 22)),
       (3, 2, .ok (.count 23)), (3, 3, .ok (.count 24))]).s.totalTasksCountInCategory
      = 21 ∧
    (run (twoSelects baseState (some catWork) (some catHome))
      [(3, 0, .ok (.count 21)), (3, 1, .ok (.count 22)),
       (3, 2, .ok (.count 23)), (3, 3, .ok (.count 24)),
       (1, 0, .ok (.count 11)), (1, 1, .ok (.count 12)),
       (1, 2, .ok (.count 13)), (1, 3, .ok (.count 14))]).s.totalTasksCountInCategory
      = 11 ∧
    (run (twoSelects baseState (some catWork) (some catHome))
      [(3, 0, .ok (.count 21)), (3, 1, .ok (.count 22)),
       (3, 2, .ok (.count 23)), (3, 3, .ok (.count 24)),
       (1, 0, .ok (.count 11)), (1, 1, .ok (.count 12)),
       (1, 2, .ok (.count 13)), (1, 3, .ok (.count 14))]).s.selectedCategory
      = some catHome := by
  refine ⟨rfl, rfl, rfl⟩

/-- C5 (amended): when a second statistics recompute is issued while the
first is still in flight, neither subscription is cancelled: each barrier
publishes its own four-tuple when its own four counts arrive, and the tuple
that remains current is the one of the barrier that resolves last,
regardless of issue order.  If the earlier-issued barrier resolves after the
newer one, its (stale) tuple overwrites the newer one. -/
theorem c5_two_recomputes_amended (s0 : AppState) (c1 c2 : Option Category)
    (a1 b1 u1 g1 a2 b2 u2 g2 : Nat) :
    ((run (twoSelects s0 c1 c2)
      [(3, 0, .ok (.count a2)), (3, 1, .ok (.count b2)),
       (3, 2, .ok (.count u2)), (3, 3, .ok (.count g2)),
       (1, 0, .ok (.count a1)), (1, 1, .ok (.count b1)),
       (1, 2, .ok (.count u1)), (1, 3, .ok (.count g1))]).s.totalTasksCountInCategory
        = a1 ∧
     (run (twoSelects s0 c1 c2)
      [(3, 0, .ok (.count a2)), (3, 1, .ok (.count b2)),
       (3, 2, .ok (.count u2)), (3, 3, .ok (.count g2)),
       (1, 0, .ok (.count a1)), (1, 1, .ok (.count b1)),
       (1, 2, .ok (.count u1)), (1, 3, .ok (.count g1))]).s.completedCountInCategory
        = b1 ∧
     (run (twoSelects s0 c1 c2)
      [(3, 0, .ok (.count a2)), (3, 1, .ok (.count b2)),
       (3, 2, .ok (.count u2)), (3, 3, .ok (.count g2)),
       (1, 0, .ok (.count a1)), (1, 1, .ok (.count b1)),
       (1, 2, .ok (.count u1)), (1, 3, .ok (.count g1))]).s.uncompletedCountInCategory
        = u1 ∧
     (run (twoSelects s0 c1 c2)
      [(3, 0, .ok (.count a2)), (3, 1, .ok (.count b2)),
       (3, 2, .ok (.count u2)), (3, 3, .ok (.count g2)),
       (1, 0, .ok (.count a1)), (1, 1, .ok (.count b1)),
       (1, 2, .ok (.count u1)), (1, 3, .ok (.count g1))]).s.uncompletedTotalTasksCount
        = g1) ∧
    ((run (twoSelects s0 c1 c2)
      [(1, 0, .ok (.count a1)), (1, 1, .ok (.count b1)),
       (1, 2, .ok (.count u1)), (1, 3, .ok (.count g1)),
       (2, 0, .ok (.count a2)), (2, 1, .ok (.count b2)),
       (2, 2, .ok (.count u2)), (2, 3, .ok (.count g2))]).s.totalTasksCountInCategory
        = a2 ∧
     (run (twoSelects s0 c1 c2)
      [(1, 0, .ok (.count a1)), (1, 1, .ok (.count b1)),
       (1, 2, .ok (.count u1)), (1, 3, .ok (.count g1)),
       (2, 0, .ok (.count a2)), (2, 1, .ok (.count b2)),
       (2, 2, .ok (.count u2)), (2, 3, .ok (.count g2))]).s.completedCountInCategory
        = b2 ∧
     (run (twoSelects s0 c1 c2)
      [(1, 0, .ok (.count a1)), (1, 1, .ok (.count b1)),
       (1, 2, .ok (.count u1)), (1, 3, .ok (.count g1)),
       (2, 0, .ok (.count a2)), (2, 1, .ok (.count b2)),
       (2, 2, .ok (.count u2)), (2, 3, .ok (.count g2))]).s.uncompletedCountInCategory
        = u2 ∧
     (run (twoSelects s0 c1 c2)
      [(1, 0, .ok (.count a1)), (1, 1, .ok (.count b1)),
       (1, 2, .ok (.count u1)), (1, 3, .ok (.count g1)),
       (2, 0, .ok (.count a2)), (2, 1, .ok (.count b2)),
       (2, 2, .ok (.count u2)), (2, 3, .ok (.count g2))]).s.uncompletedTotalTasksCount
        = g2) := by
  refine ⟨⟨?_, ?_, ?_, ?_⟩, ⟨?_, ?_, ?_, ?_⟩⟩ <;>
    simp [twoSelects, invoke, sync, onSelectCategory, updateTasksAndStat,
      updateTasks, updateStat, run, deliver, applyDelivery, fillSlot,
      statK, setStats, tasksK]

/-- C8: the category list rebuilt by `fillCategories` is sorted by
`localeCompare` on titles, ascending (here `lc` abstracts the locale-aware
three-way comparison, assumed transitive and total on the non-positive side,
as ECMA-262 requires of a consistent comparator), and the sort is stable:
for any tie class (categories whose titles compare equal to a reference
title in both directions), the class members keep their original relative
order. -/
theorem c8_sort_locale_stable (lc : String → String → Int) (l : List Category)
    (y : String)
    (htrans : ∀ a b c : String, lc a b ≤ 0 → lc b c ≤ 0 → lc a c ≤ 0)
    (htot : ∀ a b : String, lc a b ≤ 0 ∨ lc b a ≤ 0) :
    (∀ s : AppState, (sync (fillCategories lc) s).1.categories
        = sortCategories lc s.categories) ∧
    (sortCategories lc l).Pairwise (fun a b => lc a.title b.title ≤ 0) ∧
    (sortCategories lc l).filter
        (fun c => decide (lc c.title y = 0 ∧ lc y c.title = 0))
      = l.filter (fun c => decide (lc c.title y = 0 ∧ lc y c.title = 0)) := by
  have htransB : ∀ a b c : Category,
      (fun a b : Category => decide (lc a.title b.title ≤ 0)) a b = true →
      (fun a b : Category => decide (lc a.title b.title ≤ 0)) b c = true →
      (fun a b : Category => decide (lc a.title b.title ≤ 0)) a c = true := by
    intro a b c h1 h2
    exact decide_eq_true (htrans _ _ _ (of_decide_eq_true h1) (of_decide_eq_true h2))
  have htotB : ∀ a b : Category,
      ((fun a b : Category => decide (lc a.title b.title ≤ 0)) a b ||
       (fun a b : Category => decide (lc a.title b.title ≤ 0)) b a) = true := by
    intro a b
    rcases htot a.title b.title with h | h <;> simp [decide_eq_true h]
  refine ⟨fun s => rfl, ?_, ?_⟩
  · have h := List.sorted_mergeSort htransB htotB l
    exact h.imp (fun hab => of_decide_eq_true hab)
  · have hpair : (l.filter
        (fun c => decide (lc c.title y = 0 ∧ lc y c.title = 0))).Pairwise
        (fun a b : Category => decide (lc a.title b.title ≤ 0) = true) := by
      apply List.pairwise_of_forall_mem_list
      intro a ha b hb
      have hpa := of_decide_eq_true (List.mem_filter.mp ha).2
      have hpb := of_decide_eq_true (List.mem_filter.mp hb).2
      exact decide_eq_true (htrans _ _ _ hpa.1.le hpb.2.le)
    have hsub : (l.filter (fun c => decide (lc c.title y = 0 ∧ lc y c.title = 0))).Sublist
        (sortCategories lc l) :=
      List.sublist_mergeSort htransB htotB hpair (List.filter_sublist l)
    have hperm : ((sortCategories lc l).filter
        (fun c => decide (lc c.title y = 0 ∧ lc y c.title = 0))).Perm
        (l.filter (fun c => decide (lc c.title y = 0 ∧ lc y c.title = 0))) :=
      (List.mergeSort_perm l _).filter _
    have hself : (l.filter (fun c => decide (lc c.title y = 0 ∧ lc y c.title = 0))).filter
        (fun c => decide (lc c.title y = 0 ∧ lc y c.title = 0))
        = l.filter (fun c => decide (lc c.title y = 0 ∧ lc y c.title = 0)) :=
      List.filter_eq_self.mpr (fun a ha => (List.mem_filter.mp ha).2)
    have hsub2 : (l.filter (fun c => decide (lc c.title y = 0 ∧ lc y c.title = 0))).Sublist
        ((sortCategories lc l).filter
          (fun c => decide (lc c.title y = 0 ∧ lc y c.title = 0))) := by
      have h2 := List.Sublist.filter
        (fun c => decide (lc c.title y = 0 ∧ lc y c.title = 0)) hsub
      rwa [hself] at h2
    exact (hsub2.eq_of_length hperm.length_eq.symm).symm

/-- Witness for c8: the all-ties comparator; the sort leaves the two
categories (one tie class) in their original order. -/
theorem c8_sort_locale_stable_witness :
    (∀ s : AppState, (sync (fillCategories (fun _ _ => 0)) s).1.categories
        = sortCategories (fun _ _ => 0) s.categories) ∧
    (sortCategories (fun _ _ => 0) [catWork, catHome]).Pairwise
      (fun _ _ => (0 : Int) ≤ 0) ∧
    (sortCategories (fun _ _ => 0) [catWork, catHome]).filter
        (fun _ => decide ((0 : Int) = 0 ∧ (0 : Int) = 0))
      = [catWork, catHome].filter (fun _ => decide ((0 : Int) = 0 ∧ (0 : Int) = 0)) :=
  c8_sort_locale_stable (fun _ _ => 0) [catWork, catHome] "x"
    (fun _ _ _ h1 _ => h1) (fun _ _ => Or.inl (Int.le_refl 0))

end Todo
